import Mathlib

/-!
Verification development for the Aegisub automation-bridge core:
the Whisper transcription cache/dedup engine (`src/whisper_service.cpp`)
and the MCP JSON-RPC server (`src/mcp/mcp_server.cpp`).

The C++ code is shallowly embedded: the mutex-guarded state of
`WhisperService` becomes an explicit state record threaded through pure
step functions, background tasks become explicit `ScheduledTask` values
whose run is a pure function of the external outcomes (audio-export
success, provider response), and the JSON-RPC dispatcher becomes a pure
function over an inductive JSON value type.
-/

namespace Whisper

/-- A dialogue line (`AssDialogue`): only the fields the transcription
service reads are modelled.  `Id` is the stable line identifier,
`ExtradataIds` the line's references into the file's extradata table. -/
structure AssDialogue where
  Id : Int
  ExtradataIds : List Nat
  deriving DecidableEq, Repr

/-- One row of the extradata side-table: numeric id, feature key, value. -/
structure ExtradataEntry where
  id : Nat
  key : String
  value : String
  deriving DecidableEq, Repr

/-- The parts of the subtitle file (`AssFile`) the service touches:
the event lines and the extradata table with its fresh-id counter. -/
structure AssDoc where
  events : List AssDialogue
  extradata : List ExtradataEntry
  next_id : Nat
  deriving DecidableEq, Repr

/-- Mutex-guarded state of `WhisperService`: `cache` is the
`std::map<int, std::string>` of transcribed text keyed by line id,
`in_flight` the `std::set<int>` of ids with a scheduled background task. -/
structure WhisperState where
  cache : List (Int × String)
  in_flight : List Int
  deriving DecidableEq, Repr

/-- Model of `std::map::erase(k)`: drop any binding for `k`. -/
def mapErase (k : Int) (m : List (Int × String)) : List (Int × String) :=
  m.filter (fun p => p.1 ≠ k)

/-- Model of `cache[k] = v`: overwrite-or-add binding for `k`. -/
def mapInsert (k : Int) (v : String) (m : List (Int × String)) : List (Int × String) :=
  (k, v) :: mapErase k m

/-- Model of `std::set::erase(k)`: erase-if-present. -/
def setErase (k : Int) (s : List Int) : List Int :=
  s.filter (fun x => x ≠ k)

/-- The feature key under which transcriptions persist (`EXTRADATA_KEY`). -/
def EXTRADATA_KEY : String := "whisper"

/-- Hard cap on the requested clip length (`MAX_DURATION_MS`). -/
def MAX_DURATION_MS : Int := 60000

/-- Modelled from the spec: `AssFile::GetExtradata` is not part of the
extracted sources; per §6 the side-table is a per-entity key/value store,
so the lookup returns the table rows whose id occurs in the given list,
in table order. -/
def GetExtradata (doc : AssDoc) (ids : List Nat) : List ExtradataEntry :=
  doc.extradata.filter (fun e => ids.contains e.id)

/-- Modelled from the spec: `AssFile::AddExtradata` is not part of the
extracted sources; per §6 it records a feature-tagged key/value row and
yields its id, modelled as appending a row under a fresh id. -/
def AddExtradata (doc : AssDoc) (key value : String) : AssDoc × Nat :=
  ({ doc with
      extradata := doc.extradata ++ [⟨doc.next_id, key, value⟩],
      next_id := doc.next_id + 1 },
   doc.next_id)

/-- Replace the first event whose `Id` is `k` (the C++ call sites hold a
pointer to one line; the line is identified here by its stable id). -/
def updateFirstLine (k : Int) (f : AssDialogue → AssDialogue) :
    List AssDialogue → List AssDialogue
  | [] => []
  | l :: ls => if l.Id = k then f l :: ls else l :: updateFirstLine k f ls

/-- The rewrite `StoreInExtradata` applies to the stored line's
`ExtradataIds`: drop references to rows carrying the whisper key and
append the reference to the new row. -/
def storeLineUpdate (doc1 : AssDoc) (newId : Nat) (l : AssDialogue) : AssDialogue :=
  let ids := l.ExtradataIds
  let existing := GetExtradata doc1 ids
  { l with ExtradataIds :=
      ids.filter (fun eid =>
        !(existing.any (fun e => e.id == eid && e.key == EXTRADATA_KEY)))
      ++ [newId] }

/-- Model of `WhisperService::StoreInExtradata`: add the text as a new extradata
row, then rewrite the stored line's row references. -/
def StoreInExtradata (doc : AssDoc) (line_id : Int) (text : String) : AssDoc :=
  let (doc1, newId) := AddExtradata doc EXTRADATA_KEY text
  { doc1 with
    events := updateFirstLine line_id (storeLineUpdate doc1 newId) doc1.events }

/-- The per-line scan of `WhisperService::LoadFromExtradata`: the first
extradata entry of the line carrying the whisper key with a non-empty
value, if any. -/
def loadLineText (doc : AssDoc) (line : AssDialogue) : Option String :=
  let ids := line.ExtradataIds
  if ids = [] then none
  else
    match (GetExtradata doc ids).find?
        (fun e => e.key == EXTRADATA_KEY && !(e.value == "")) with
    | some e => some e.value
    | none => none

/-- Model of `WhisperService::LoadFromExtradata`: clear the cache and rebuild it
from the persisted values; `in_flight` is untouched. -/
def LoadFromExtradata (doc : AssDoc) (s : WhisperState) : WhisperState :=
  { s with cache :=
      doc.events.foldl (fun c line =>
        match loadLineText doc line with
        | some v => mapInsert line.Id v c
        | none => c) [] }

/-- Model of `WhisperService::GetCachedText`: cached text for the line, else "". -/
def GetCachedText (s : WhisperState) (line : AssDialogue) : String :=
  match s.cache.lookup line.Id with
  | some v => v
  | none => ""

/-- Model of `WhisperService::HasText`. -/
def HasText (s : WhisperState) (line : AssDialogue) : Bool :=
  (s.cache.lookup line.Id).isSome

/-- Model of `WhisperService::Clear`: empty both `cache` and `in_flight`. -/
def Clear (_s : WhisperState) : WhisperState :=
  { cache := [], in_flight := [] }

/-- Model of `WhisperService::InvalidateCache`: remove from the cache only. -/
def InvalidateCache (s : WhisperState) (line : AssDialogue) : WhisperState :=
  { s with cache := mapErase line.Id s.cache }

/-- A background task scheduled by `TranscribeAsync`, carrying the data
the C++ closure captures; `κ` is the type of the `on_complete` callback
value, kept abstract so that callback identity is trackable. -/
structure ScheduledTask (κ : Type) where
  line_id : Int
  start_ms : Int
  end_ms : Int
  on_complete : κ

/-- Model of `WhisperService::TranscribeAsync(line, start_ms, end_ms, on_complete)`.
The C++ entry guards (null line, empty API key, no audio provider, bad
duration) become explicit parameters; the mutex-guarded section becomes
the returned state, and a scheduled background task is returned as a
value instead of being handed to the dispatcher.  `none` means the call
returned without scheduling work; the callback of such a call is
referenced by nothing and hence never invoked. -/
def TranscribeAsync {κ : Type} (line : Option AssDialogue) (api_key : String)
    (provider_loaded : Bool) (start_ms end_ms : Int) (on_complete : κ)
    (s : WhisperState) : WhisperState × Option (ScheduledTask κ) :=
  match line with
  | none => (s, none)
  | some l =>
    if api_key = "" then (s, none)
    else if !provider_loaded then (s, none)
    else
      let duration_ms := end_ms - start_ms
      if duration_ms ≤ 0 ∨ duration_ms > MAX_DURATION_MS then (s, none)
      else
        let line_id := l.Id
        if (s.cache.lookup line_id).isSome then (s, none)
        else if line_id ∈ s.in_flight then (s, none)
        else ({ s with in_flight := line_id :: s.in_flight },
              some ⟨line_id, start_ms, end_ms, on_complete⟩)

/-- External outcomes a background task runs against: whether
`SaveAudioClip` succeeded (no exception), and the string returned by
`CallWhisperAPI` — which per the source returns `""` on any CURL
failure or timeout. -/
structure TaskRun where
  save_ok : Bool
  api_result : String

/-- The completion closure posted to the main thread: under the lock,
erase the id from `in_flight` and, only for a non-empty result, insert
it into the cache; then, for a non-empty result, persist the text into
the extradata of the (first) line with that id, if it still exists. -/
def completeTranscription (line_id : Int) (result : String)
    (s : WhisperState) (doc : AssDoc) : WhisperState × AssDoc :=
  let s' : WhisperState :=
    { cache := if result = "" then s.cache else mapInsert line_id result s.cache,
      in_flight := setErase line_id s.in_flight }
  let doc' :=
    if result = "" then doc
    else if doc.events.any (fun d => d.Id == line_id) then
      StoreInExtradata doc line_id result
    else doc
  (s', doc')

/-- Everything observable about one background-task execution. -/
structure TaskResult (κ : Type) where
  state : WhisperState
  doc : AssDoc
  on_complete : κ
  callback_arg : String
  provider_called : Bool

/-- Run of the background closure from `TranscribeAsync`: if the audio
export throws, erase the id from `in_flight` and deliver `""` to the
callback without calling the provider; otherwise call the provider once
and run the completion closure on its result. -/
def runBackgroundTask {κ : Type} (t : ScheduledTask κ) (run : TaskRun)
    (s : WhisperState) (doc : AssDoc) : TaskResult κ :=
  if !run.save_ok then
    { state := { s with in_flight := setErase t.line_id s.in_flight },
      doc := doc, on_complete := t.on_complete, callback_arg := "",
      provider_called := false }
  else
    let result := run.api_result
    let (s', doc') := completeTranscription t.line_id result s doc
    { state := s', doc := doc', on_complete := t.on_complete,
      callback_arg := result, provider_called := true }

end Whisper

namespace Mcp

/-- The JSON values of the dispatcher, mirroring `nlohmann::json`. -/
inductive Json where
  | null
  | bool (b : Bool)
  | num (n : Int)
  | str (s : String)
  | arr (elems : List Json)
  | obj (fields : List (String × Json))

mutual

/-- Decidable equality on JSON values (nested induction, so the
instance is written out rather than derived). -/
def Json.decEq : (a b : Json) → Decidable (a = b)
  | .null, .null => isTrue rfl
  | .null, .bool _ => isFalse (fun h => Json.noConfusion h)
  | .null, .num _ => isFalse (fun h => Json.noConfusion h)
  | .null, .str _ => isFalse (fun h => Json.noConfusion h)
  | .null, .arr _ => isFalse (fun h => Json.noConfusion h)
  | .null, .obj _ => isFalse (fun h => Json.noConfusion h)
  | .bool _, .null => isFalse (fun h => Json.noConfusion h)
  | .bool a, .bool b =>
    match Bool.decEq a b with
    | isTrue h => isTrue (h ▸ rfl)
    | isFalse h => isFalse (fun hh => h (Json.bool.inj hh))
  | .bool _, .num _ => isFalse (fun h => Json.noConfusion h)
  | .bool _, .str _ => isFalse (fun h => Json.noConfusion h)
  | .bool _, .arr _ => isFalse (fun h => Json.noConfusion h)
  | .bool _, .obj _ => isFalse (fun h => Json.noConfusion h)
  | .num _, .null => isFalse (fun h => Json.noConfusion h)
  | .num _, .bool _ => isFalse (fun h => Json.noConfusion h)
  | .num a, .num b =>
    match Int.decEq a b with
    | isTrue h => isTrue (h ▸ rfl)
    | isFalse h => isFalse (fun hh => h (Json.num.inj hh))
  | .num _, .str _ => isFalse (fun h => Json.noConfusion h)
  | .num _, .arr _ => isFalse (fun h => Json.noConfusion h)
  | .num _, .obj _ => isFalse (fun h => Json.noConfusion h)
  | .str _, .null => isFalse (fun h => Json.noConfusion h)
  | .str _, .bool _ => isFalse (fun h => Json.noConfusion h)
  | .str _, .num _ => isFalse (fun h => Json.noConfusion h)
  | .str a, .str b =>
    match String.decEq a b with
    | isTrue h => isTrue (h ▸ rfl)
    | isFalse h => isFalse (fun hh => h (Json.str.inj hh))
  | .str _, .arr _ => isFalse (fun h => Json.noConfusion h)
  | .str _, .obj _ => isFalse (fun h => Json.noConfusion h)
  | .arr _, .null => isFalse (fun h => Json.noConfusion h)
  | .arr _, .bool _ => isFalse (fun h => Json.noConfusion h)
  | .arr _, .num _ => isFalse (fun h => Json.noConfusion h)
  | .arr _, .str _ => isFalse (fun h => Json.noConfusion h)
  | .arr xs, .arr ys =>
    match Json.decEqList xs ys with
    | isTrue h => isTrue (h ▸ rfl)
    | isFalse h => isFalse (fun hh => h (Json.arr.inj hh))
  | .arr _, .obj _ => isFalse (fun h => Json.noConfusion h)
  | .obj _, .null => isFalse (fun h => Json.noConfusion h)
  | .obj _, .bool _ => isFalse (fun h => Json.noConfusion h)
  | .obj _, .num _ => isFalse (fun h => Json.noConfusion h)
  | .obj _, .str _ => isFalse (fun h => Json.noConfusion h)
  | .obj _, .arr _ => isFalse (fun h => Json.noConfusion h)
  | .obj fs, .obj gs =>
    match Json.decEqFields fs gs with
    | isTrue h => isTrue (h ▸ rfl)
    | isFalse h => isFalse (fun hh => h (Json.obj.inj hh))

/-- Decidable equality on JSON arrays. -/
def Json.decEqList : (a b : List Json) → Decidable (a = b)
  | [], [] => isTrue rfl
  | [], _ :: _ => isFalse (fun h => List.noConfusion h)
  | _ :: _, [] => isFalse (fun h => List.noConfusion h)
  | x :: xs, y :: ys =>
    match Json.decEq x y, Json.decEqList xs ys with
    | isTrue h1, isTrue h2 => isTrue (h1 ▸ h2 ▸ rfl)
    | isFalse h1, _ => isFalse (fun hh => h1 (List.cons.inj hh).1)
    | _, isFalse h2 => isFalse (fun hh => h2 (List.cons.inj hh).2)

/-- Decidable equality on JSON object member lists. -/
def Json.decEqFields : (a b : List (String × Json)) → Decidable (a = b)
  | [], [] => isTrue rfl
  | [], _ :: _ => isFalse (fun h => List.noConfusion h)
  | _ :: _, [] => isFalse (fun h => List.noConfusion h)
  | (k1, v1) :: xs, (k2, v2) :: ys =>
    match String.decEq k1 k2, Json.decEq v1 v2, Json.decEqFields xs ys with
    | isTrue h1, isTrue h2, isTrue h3 => isTrue (by rw [h1, h2, h3])
    | isFalse h1, _, _ => isFalse (fun hh => h1 (congrArg Prod.fst (List.cons.inj hh).1))
    | _, isFalse h2, _ => isFalse (fun hh => h2 (congrArg Prod.snd (List.cons.inj hh).1))
    | _, _, isFalse h3 => isFalse (fun hh => h3 (List.cons.inj hh).2)

end

instance : DecidableEq Json := Json.decEq

/-- Model of `j[k]` on an object: the first binding for `k`, if any. -/
def Json.getField : Json → String → Option Json
  | .obj fields, k => fields.lookup k
  | _, _ => none

/-- Model of `json::contains`. -/
def Json.hasKey (j : Json) (k : String) : Bool :=
  (j.getField k).isSome

/-- Model of `json::value(k, default)`.  On a non-object receiver the source
throws `type_error`; no dispatch path modelled below reaches that case
with a non-object, and the model returns the default there. -/
def Json.valueD (j : Json) (k : String) (d : Json) : Json :=
  (j.getField k).getD d

/-- JSON string escaping for the serializer. -/
def escapeChar (c : Char) : String :=
  if c = '"' then "\\\""
  else if c = '\\' then "\\\\"
  else if c = '\n' then "\\n"
  else if c = '\t' then "\\t"
  else if c = '\r' then "\\r"
  else String.singleton c

/-- Escape every character of a string. -/
def escapeString (s : String) : String :=
  String.join (s.toList.map escapeChar)

mutual

/-- Model of `json::dump()`: compact serialization. -/
def Json.dump : Json → String
  | .null => "null"
  | .bool true => "true"
  | .bool false => "false"
  | .num n => toString n
  | .str s => "\"" ++ escapeString s ++ "\""
  | .arr xs => "[" ++ Json.dumpElems xs ++ "]"
  | .obj fs => "\x7b" ++ Json.dumpFields fs ++ "\x7d"

/-- Comma-separated serialization of array elements. -/
def Json.dumpElems : List Json → String
  | [] => ""
  | [x] => Json.dump x
  | x :: y :: xs => Json.dump x ++ "," ++ Json.dumpElems (y :: xs)

/-- Comma-separated serialization of object members. -/
def Json.dumpFields : List (String × Json) → String
  | [] => ""
  | [(k, v)] => "\"" ++ escapeString k ++ "\":" ++ Json.dump v
  | (k, v) :: f :: fs =>
      "\"" ++ escapeString k ++ "\":" ++ Json.dump v ++ "," ++ Json.dumpFields (f :: fs)

end

/-- One registered tool (`ToolDef`): the handler is a pure function of
the arguments returning either a result or a thrown exception's
message; the GUI-thread dispatch of the source affects only where the
handler runs, not its value. -/
structure ToolDef where
  name : String
  description : String
  input_schema : Json
  run_on_main_thread : Bool := true
  handler : Json → Except String Json

/-- Model of `McpServer::Impl::MakeError`: a JSON-RPC error envelope. -/
def MakeError (id : Json) (code : Int) (message : String) : Json :=
  .obj [("jsonrpc", .str "2.0"), ("id", id),
        ("error", .obj [("code", .num code), ("message", .str message)])]

/-- A JSON-RPC success envelope, as built at the end of `ProcessJsonRpc`. -/
def envelope (id result : Json) : Json :=
  .obj [("jsonrpc", .str "2.0"), ("id", id), ("result", result)]

/-- Result value of `McpServer::Impl::HandleInitialize` (the
session-initialized flag it also sets is never read on any modelled
path). -/
def HandleInitializeRpc : Json :=
  .obj [("protocolVersion", .str "2024-11-05"),
        ("capabilities", .obj [("tools", .obj [])]),
        ("serverInfo", .obj [("name", .str "aegisub"), ("version", .str "3.4.1")])]

/-- Model of `McpServer::Impl::HandleToolsList`. -/
def HandleToolsList (tools : List ToolDef) : Json :=
  .obj [("tools", .arr (tools.map (fun t =>
    .obj [("name", .str t.name), ("description", .str t.description),
          ("inputSchema", t.input_schema)])))]

/-- The payload `HandleToolsCall` returns for an unregistered tool name. -/
def unknownToolResult (name : String) : Json :=
  .obj [("content", .arr [.obj [("type", .str "text"),
          ("text", .str ("Unknown tool: " ++ name))]]),
        ("isError", .bool true)]

/-- The payload `HandleToolsCall` returns when a handler throws. -/
def toolErrorResult (msg : String) : Json :=
  .obj [("content", .arr [.obj [("type", .str "text"),
          ("text", .str ("Error: " ++ msg))]]),
        ("isError", .bool true)]

/-- Model of `McpServer::Impl::HandleToolsCall`: `Except.error` is the
`std::runtime_error` thrown for a missing/non-string tool name; handler
exceptions are caught inside and folded into an `isError` payload. -/
def HandleToolsCall (tools : List ToolDef) (params : Json) : Except String Json :=
  match params.getField "name" with
  | some (Json.str name) =>
    let arguments := params.valueD "arguments" (.obj [])
    match tools.find? (fun t => t.name == name) with
    | none => .ok (unknownToolResult name)
    | some t =>
      match t.handler arguments with
      | .error msg => .ok (toolErrorResult msg)
      | .ok tool_result =>
        if tool_result.hasKey "content" then .ok tool_result
        else .ok (.obj [("content", .arr [.obj [("type", .str "text"),
                    ("text", .str tool_result.dump)]])])
  | _ => .error "Missing tool name"

/-- Model of `McpServer::Impl::ProcessJsonRpc`: `none` is the source's null json
return (no response entry).  The source's single try/catch around the
method dispatch ends in one shared notification check; here that check
is distributed into the (mutually exclusive) method branches. -/
def ProcessJsonRpc (tools : List ToolDef) (request : Json) : Option Json :=
  if request.getField "jsonrpc" ≠ some (Json.str "2.0") then
    some (MakeError (request.valueD "id" .null) (-32600)
      "Invalid Request: missing jsonrpc 2.0")
  else
    match request.getField "method" with
    | some (Json.str method) =>
      let id := request.valueD "id" .null
      let params := request.valueD "params" (.obj [])
      let is_notification := !(request.hasKey "id")
      if method == "notifications/initialized" then none
      else if method == "initialize" then
        if is_notification then none else some (envelope id HandleInitializeRpc)
      else if method == "ping" then
        if is_notification then none else some (envelope id (.obj []))
      else if method == "tools/list" then
        if is_notification then none else some (envelope id (HandleToolsList tools))
      else if method == "tools/call" then
        match HandleToolsCall tools params with
        | .ok result =>
          if is_notification then none else some (envelope id result)
        | .error msg =>
          if is_notification then none
          else some (MakeError id (-32603) ("Internal error: " ++ msg))
      else
        if is_notification then none
        else some (MakeError id (-32601) ("Method not found: " ++ method))
    | _ => some (MakeError (request.valueD "id" .null) (-32600)
            "Invalid Request: missing method")

/-- Status and body of the HTTP response (`httplib::Response`); the
implicit httplib default status after `set_content` is 200. -/
structure HttpResponse where
  status : Nat
  body : Option Json
  deriving DecidableEq

/-- Model of `McpServer::Impl::HandleMcpRequest`: `parsed = none` models an HTTP
body `json::parse` rejects (the exception text appended to the
"Parse error: " message in the source is platform-dependent and
modelled as the fixed message "Parse error"). -/
def HandleMcpRequest (tools : List ToolDef) (parsed : Option Json) : HttpResponse :=
  match parsed with
  | none => { status := 200, body := some (MakeError .null (-32700) "Parse error") }
  | some request =>
    match request with
    | .obj _ =>
      match ProcessJsonRpc tools request with
      | none => { status := 202, body := none }
      | some response => { status := 200, body := some response }
    | .arr items =>
      let responses := items.filterMap (ProcessJsonRpc tools)
      if responses.isEmpty then { status := 202, body := none }
      else { status := 200, body := some (.arr responses) }
    | _ => { status := 200, body := some (MakeError .null (-32600) "Invalid Request") }

/-- A batch member the dispatcher answers with no response entry: it
passes envelope validation (`jsonrpc` literally `"2.0"`, string
`method`) and either carries no `id` (a notification) or has method
`notifications/initialized`, which `ProcessJsonRpc` answers with the
null json unconditionally. -/
def silentMember (j : Json) : Bool :=
  (j.getField "jsonrpc" == some (Json.str "2.0")) &&
  (match j.getField "method" with
   | some (Json.str m) => !(j.hasKey "id") || m == "notifications/initialized"
   | _ => false)

end Mcp


namespace Whisper

theorem lookup_mapInsert_self (k : Int) (v : String) (m : List (Int × String)) :
    (mapInsert k v m).lookup k = some v := by
  simp [mapInsert, List.lookup]

theorem lookup_mapErase_ne (k j : Int) (m : List (Int × String)) (h : k ≠ j) :
    (mapErase j m).lookup k = m.lookup k := by
  induction m with
  | nil => rfl
  | cons p m ih =>
    rcases p with ⟨a, b⟩
    by_cases ha : a = j
    · have h1 : mapErase j ((a, b) :: m) = mapErase j m := by
        simp [mapErase, List.filter_cons, ha]
      have h2 : ((a, b) :: m).lookup k = m.lookup k := by
        have hk : (k == a) = false := by simp [ha, h]
        simp [List.lookup, hk]
      rw [h1, h2, ih]
    · have h1 : mapErase j ((a, b) :: m) = (a, b) :: mapErase j m := by
        simp [mapErase, List.filter_cons, ha]
      by_cases hk : k = a
      · subst hk
        simp [h1, List.lookup]
      · have hk' : (k == a) = false := by simp [hk]
        rw [h1]
        simp [List.lookup, hk', ih]

theorem lookup_mapInsert_ne (k j : Int) (v : String) (m : List (Int × String))
    (h : k ≠ j) : (mapInsert j v m).lookup k = m.lookup k := by
  have hk : (k == j) = false := by simp [h]
  simp [mapInsert, List.lookup, hk, lookup_mapErase_ne _ _ _ h]

/-- C10: `TranscribeAsync` is a silent no-op — `cache` and `in_flight`
unchanged, no background task scheduled, the callback referenced by
nothing and hence never invoked — whenever the line pointer is null,
the configured API key is empty, no audio provider is loaded, or the
requested duration `end_ms - start_ms` is non-positive or exceeds
`MAX_DURATION_MS` (60000 ms). -/
theorem TranscribeAsync_guard_noop {κ : Type} (line : Option AssDialogue)
    (api_key : String) (provider_loaded : Bool) (start_ms end_ms : Int)
    (on_complete : κ) (s : WhisperState)
    (h : line = none ∨ api_key = "" ∨ provider_loaded = false ∨
         end_ms - start_ms ≤ 0 ∨ end_ms - start_ms > MAX_DURATION_MS) :
    TranscribeAsync line api_key provider_loaded start_ms end_ms on_complete s
      = (s, none) := by
  cases line with
  | none => rfl
  | some l =>
    simp only [MAX_DURATION_MS] at h
    simp only [TranscribeAsync, MAX_DURATION_MS]
    rcases h with h | h | h | h | h
    · exact absurd h (by simp)
    · simp [h]
    · simp [h]
    · split_ifs <;> first | rfl | omega
    · split_ifs <;> first | rfl | omega

/-- C3: a `TranscribeAsync` call for a line whose id is already cached
returns with the state unchanged (nothing inserted into `in_flight`)
and schedules no background task, hence issues zero provider calls. -/
theorem TranscribeAsync_cached_noop {κ : Type} (l : AssDialogue)
    (api_key : String) (provider_loaded : Bool) (start_ms end_ms : Int)
    (on_complete : κ) (s : WhisperState)
    (hc : (s.cache.lookup l.Id).isSome = true) :
    TranscribeAsync (some l) api_key provider_loaded start_ms end_ms on_complete s
      = (s, none) := by
  simp only [TranscribeAsync]
  split_ifs <;> simp_all

/-- C9: when the line's id is already in the cache or in the in-flight
set, `TranscribeAsync` returns with the state unchanged and schedules
no task; since the caller's `on_complete` is referenced only by the
scheduled task's closure, the redundant caller's callback is dropped
and never invoked. -/
theorem TranscribeAsync_redundant_callback_dropped {κ : Type} (l : AssDialogue)
    (api_key : String) (provider_loaded : Bool) (start_ms end_ms : Int)
    (on_complete : κ) (s : WhisperState)
    (h : (s.cache.lookup l.Id).isSome = true ∨ l.Id ∈ s.in_flight) :
    TranscribeAsync (some l) api_key provider_loaded start_ms end_ms on_complete s
      = (s, none) := by
  simp only [TranscribeAsync]
  split_ifs <;> first | rfl | (rcases h with h | h <;> simp_all)

/-- C2: when the provider call fails or times out (`CallWhisperAPI`
returns `""`), the completion step erases the id from `in_flight`,
leaves the cache exactly as it was (no entry touched or added), leaves
the document untouched, and hands `""` to the callback; the background
task is modelled as a total function, so no exception escapes it. -/
theorem runBackgroundTask_empty_result {κ : Type} (t : ScheduledTask κ)
    (run : TaskRun) (s : WhisperState) (doc : AssDoc)
    (_hin : t.line_id ∈ s.in_flight)
    (hsave : run.save_ok = true) (hempty : run.api_result = "") :
    (runBackgroundTask t run s doc).state.cache = s.cache ∧
    (runBackgroundTask t run s doc).state.in_flight = setErase t.line_id s.in_flight ∧
    t.line_id ∉ (runBackgroundTask t run s doc).state.in_flight ∧
    (runBackgroundTask t run s doc).doc = doc ∧
    (runBackgroundTask t run s doc).callback_arg = "" := by
  simp [runBackgroundTask, hsave, hempty, completeTranscription, setErase,
    List.mem_filter]

/-- C4: `Clear()` empties both `cache` and `in_flight` but cancels no
running task: a task whose id was cleared still completes — the
erase-if-present on `in_flight` is harmless on the emptied set — and a
non-empty result is re-inserted into the cache. -/
theorem Clear_then_completion {κ : Type} (s : WhisperState) (t : ScheduledTask κ)
    (run : TaskRun) (doc : AssDoc)
    (hsave : run.save_ok = true) (hres : run.api_result ≠ "") :
    (Clear s).cache = [] ∧ (Clear s).in_flight = [] ∧
    (runBackgroundTask t run (Clear s) doc).state.cache.lookup t.line_id
      = some run.api_result ∧
    (runBackgroundTask t run (Clear s) doc).state.in_flight = [] := by
  refine ⟨rfl, rfl, ?_, ?_⟩
  · simp [runBackgroundTask, hsave, completeTranscription, hres, Clear,
      lookup_mapInsert_self]
  · simp [runBackgroundTask, hsave, completeTranscription, hres, Clear, setErase]

/-- C1: if a `TranscribeAsync` call schedules a background task for a
line id, a second call for the same id issued before that task
completes observes the id in `in_flight` (or one of the entry guards)
and returns with the state unchanged, scheduling no second task — so
the one scheduled task accounts for the only provider call (made
exactly once when its audio export succeeds). -/
theorem TranscribeAsync_dedup {κ : Type} (l l2 : AssDialogue)
    (k1 k2 : String) (p1 p2 : Bool) (st1 en1 st2 en2 : Int) (cb1 cb2 : κ)
    (s0 s1 : WhisperState) (task : ScheduledTask κ)
    (hfirst : TranscribeAsync (some l) k1 p1 st1 en1 cb1 s0 = (s1, some task))
    (hsame : l2.Id = l.Id) :
    TranscribeAsync (some l2) k2 p2 st2 en2 cb2 s1 = (s1, none) ∧
    (∀ (run : TaskRun) (doc : AssDoc), run.save_ok = true →
      (runBackgroundTask task run s1 doc).provider_called = true) := by
  simp only [TranscribeAsync] at hfirst
  split_ifs at hfirst <;> try simp at hfirst
  obtain ⟨hs, -⟩ := hfirst
  have hfl : l.Id ∈ s1.in_flight := by rw [← hs]; simp
  constructor
  · simp only [TranscribeAsync]
    split_ifs with g1 g2 g3 g4 g5 <;> try rfl
    exact absurd (hsame ▸ hfl) g5
  · intro run doc hrun
    simp [runBackgroundTask, hrun, completeTranscription]

end Whisper

namespace Whisper

theorem find?_append_of_notfound {α : Type} (p : α → Bool) (xs ys : List α)
    (h : ∀ x ∈ xs, p x = false) : (xs ++ ys).find? p = ys.find? p := by
  induction xs with
  | nil => rfl
  | cons a as ih =>
    have ha := h a (List.mem_cons_self _ _)
    simp only [List.cons_append, List.find?, ha]
    exact ih (fun x hx => h x (List.mem_cons_of_mem _ hx))

theorem updateFirstLine_decomp (k : Int) (f : AssDialogue → AssDialogue)
    (events : List AssDialogue) (l : AssDialogue)
    (hnd : (events.map (fun x => x.Id)).Nodup) (hmem : l ∈ events)
    (hid : l.Id = k) :
    ∃ pre post, events = pre ++ l :: post ∧
      updateFirstLine k f events = pre ++ f l :: post ∧
      (∀ x ∈ pre, x.Id ≠ k) ∧ (∀ x ∈ post, x.Id ≠ k) := by
  induction events with
  | nil => cases hmem
  | cons a es ih =>
    simp only [List.map_cons, List.nodup_cons, List.mem_map] at hnd
    obtain ⟨hna, hnes⟩ := hnd
    by_cases ha : a.Id = k
    · have hal : a = l := by
        rcases List.mem_cons.mp hmem with h | h
        · exact h.symm
        · exact absurd ⟨l, h, hid.trans ha.symm⟩ hna
      subst hal
      refine ⟨[], es, by simp, ?_, by simp, ?_⟩
      · simp only [updateFirstLine, if_pos ha, List.nil_append]
      · intro x hx hxk
        exact hna ⟨x, hx, hxk.trans ha.symm⟩
    · have hl : l ∈ es := by
        rcases List.mem_cons.mp hmem with h | h
        · exact absurd (h ▸ hid) ha
        · exact h
      obtain ⟨pre, post, h1, h2, h3, h4⟩ := ih hnes hl
      refine ⟨a :: pre, post, by simp [h1], by simp [updateFirstLine, ha, h2], ?_, h4⟩
      intro x hx
      rcases List.mem_cons.mp hx with h | h
      · exact h ▸ ha
      · exact h3 x h

theorem lookup_load_foldl_frame (doc : AssDoc) (k : Int)
    (lines : List AssDialogue) (c : List (Int × String))
    (h : ∀ x ∈ lines, x.Id ≠ k) :
    (lines.foldl (fun c line =>
        match loadLineText doc line with
        | some v => mapInsert line.Id v c
        | none => c) c).lookup k = c.lookup k := by
  induction lines generalizing c with
  | nil => rfl
  | cons x xs ih =>
    have hx : x.Id ≠ k := h x (List.mem_cons_self _ _)
    have hxs : ∀ y ∈ xs, y.Id ≠ k := fun y hy => h y (List.mem_cons_of_mem _ hy)
    simp only [List.foldl_cons]
    cases hl : loadLineText doc x with
    | none => rw [hl] at *; exact ih _ hxs
    | some v =>
      rw [hl] at *
      rw [ih _ hxs]
      exact lookup_mapInsert_ne k x.Id v c (fun hh => hx hh.symm)

end Whisper

namespace Whisper

theorem storeLineUpdate_Id (doc1 : AssDoc) (n : Nat) (l : AssDialogue) :
    (storeLineUpdate doc1 n l).Id = l.Id := rfl

theorem loadLineText_stored (doc : AssDoc) (l : AssDialogue) (text : String)
    (hfresh : ∀ e ∈ doc.extradata, e.id < doc.next_id) (hne : text ≠ "") :
    loadLineText (StoreInExtradata doc l.Id text)
      (storeLineUpdate
        { events := doc.events,
          extradata := doc.extradata ++ [⟨doc.next_id, EXTRADATA_KEY, text⟩],
          next_id := doc.next_id + 1 } doc.next_id l) = some text := by
  set N := doc.next_id with hN
  set newE : ExtradataEntry := ⟨N, EXTRADATA_KEY, text⟩ with hnewE
  set doc1 : AssDoc :=
    { events := doc.events, extradata := doc.extradata ++ [newE], next_id := N + 1 }
    with hdoc1
  set l' := storeLineUpdate doc1 N l with hl'
  have hids : l'.ExtradataIds =
      l.ExtradataIds.filter (fun eid =>
        !((GetExtradata doc1 l.ExtradataIds).any
            (fun e => e.id == eid && e.key == EXTRADATA_KEY))) ++ [N] := rfl
  have hext : (StoreInExtradata doc l.Id text).extradata = doc1.extradata := rfl
  have hids_ne : ¬ l'.ExtradataIds = [] := by
    rw [hids]; simp
  have hNmem : l'.ExtradataIds.contains N = true := by
    rw [hids]; simp
  simp only [loadLineText, if_neg hids_ne]
  have hget : GetExtradata (StoreInExtradata doc l.Id text) l'.ExtradataIds =
      doc.extradata.filter (fun e => l'.ExtradataIds.contains e.id) ++ [newE] := by
    rw [GetExtradata, hext]
    show (doc.extradata ++ [newE]).filter (fun e => l'.ExtradataIds.contains e.id)
      = doc.extradata.filter (fun e => l'.ExtradataIds.contains e.id) ++ [newE]
    rw [List.filter_append]
    congr 1
    have hNmem' : N ∈ l'.ExtradataIds := by rw [hids]; simp
    simp [hNmem']
  rw [hget]
  have hold : ∀ e ∈ doc.extradata.filter (fun e => l'.ExtradataIds.contains e.id),
      (e.key == EXTRADATA_KEY && !(e.value == "")) = false := by
    intro e he
    rw [List.mem_filter] at he
    obtain ⟨hmem_e, hcont⟩ := he
    by_cases hkey : e.key = EXTRADATA_KEY
    · exfalso
      rw [hids] at hcont
      have : e.id ∈ l.ExtradataIds.filter (fun eid =>
          !((GetExtradata doc1 l.ExtradataIds).any
              (fun x => x.id == eid && x.key == EXTRADATA_KEY))) ∨ e.id = N := by
        simpa using hcont
      rcases this with hf | hn
      · rw [List.mem_filter] at hf
        obtain ⟨hin_ids, hnotany⟩ := hf
        have hany : (GetExtradata doc1 l.ExtradataIds).any
            (fun x => x.id == e.id && x.key == EXTRADATA_KEY) = true := by
          rw [List.any_eq_true]
          refine ⟨e, ?_, by simp [hkey]⟩
          rw [GetExtradata, List.mem_filter]
          exact ⟨List.mem_append_left _ hmem_e, by simpa using hin_ids⟩
        simp [hany] at hnotany
      · exact absurd hn (Nat.ne_of_lt (hfresh e hmem_e))
    · simp [hkey]
  rw [find?_append_of_notfound _ _ _ hold]
  have ht : (text == "") = false := by
    simp [hne]
  simp [List.find?, ht]

end Whisper

namespace Whisper

/-- C8: write-then-reload round-trip.  For a document with distinct
line ids and a fresh extradata counter, storing a non-empty text for a
line via `StoreInExtradata` and then rebuilding the cache via
`LoadFromExtradata` makes `GetCachedText` return exactly that text for
the line. -/
theorem StoreInExtradata_LoadFromExtradata_roundtrip (doc : AssDoc)
    (l : AssDialogue) (text : String) (s : WhisperState)
    (hnd : (doc.events.map (fun x => x.Id)).Nodup)
    (hfresh : ∀ e ∈ doc.extradata, e.id < doc.next_id)
    (hmem : l ∈ doc.events) (hne : text ≠ "") :
    GetCachedText (LoadFromExtradata (StoreInExtradata doc l.Id text) s) l
      = text := by
  set N := doc.next_id with hN
  set newE : ExtradataEntry := ⟨N, EXTRADATA_KEY, text⟩ with hnewE
  set doc1 : AssDoc :=
    { events := doc.events, extradata := doc.extradata ++ [newE], next_id := N + 1 }
    with hdoc1
  set doc' := StoreInExtradata doc l.Id text with hdoc'
  have hevents : doc'.events
      = updateFirstLine l.Id (storeLineUpdate doc1 N) doc.events := rfl
  obtain ⟨pre, post, hev, hupd, hpre, hpost⟩ :=
    updateFirstLine_decomp l.Id (storeLineUpdate doc1 N) doc.events l hnd hmem rfl
  have hkey : (LoadFromExtradata doc' s).cache.lookup l.Id = some text := by
    have hc : (LoadFromExtradata doc' s).cache =
        doc'.events.foldl (fun c line =>
          match loadLineText doc' line with
          | some v => mapInsert line.Id v c
          | none => c) [] := rfl
    rw [hc, hevents, hupd, List.foldl_append, List.foldl_cons]
    rw [lookup_load_foldl_frame doc' l.Id post _ hpost]
    have hload : loadLineText doc' (storeLineUpdate doc1 N l) = some text :=
      loadLineText_stored doc l text hfresh hne
    rw [hload, storeLineUpdate_Id]
    exact lookup_mapInsert_self _ _ _
  simp [GetCachedText, hkey]

end Whisper

namespace Mcp

/-- C7: an HTTP POST whose body is not parsable as JSON is answered
with a single JSON-RPC error object of code -32700 whose `id` field is
null (the platform-dependent exception text appended to the message in
the source is not part of the claim). -/
theorem HandleMcpRequest_parse_error (tools : List ToolDef) :
    HandleMcpRequest tools none =
      { status := 200, body := some (MakeError Json.null (-32700) "Parse error") } ∧
    (MakeError Json.null (-32700) "Parse error").getField "id" = some Json.null ∧
    (MakeError Json.null (-32700) "Parse error").getField "error" =
      some (Json.obj [("code", Json.num (-32700)), ("message", Json.str "Parse error")]) :=
  ⟨rfl, rfl, rfl⟩

/-- C6: a `tools/call` request (well-formed, with an id) whose tool
name resolves to nothing in the registry is answered with a normal
JSON-RPC success envelope — not a protocol error — whose result is
`content:[type:"text", text:"Unknown tool: <name>"], isError:true`. -/
theorem ProcessJsonRpc_unknown_tool (tools : List ToolDef)
    (fields : List (String × Json)) (idv params : Json) (name : String)
    (hjsonrpc : (Json.obj fields).getField "jsonrpc" = some (Json.str "2.0"))
    (hmethod : (Json.obj fields).getField "method" = some (Json.str "tools/call"))
    (hid : (Json.obj fields).getField "id" = some idv)
    (hparams : (Json.obj fields).getField "params" = some params)
    (hname : params.getField "name" = some (Json.str name))
    (hreg : ∀ t ∈ tools, t.name ≠ name) :
    ProcessJsonRpc tools (Json.obj fields)
      = some (envelope idv (unknownToolResult name)) := by
  have hfind : tools.find? (fun t => t.name == name) = none := by
    rw [List.find?_eq_none]
    intro t ht
    simp [hreg t ht]
  simp [ProcessJsonRpc, HandleToolsCall, hjsonrpc, hmethod, hid, hparams, hname,
    hfind, Json.valueD, Json.hasKey]

end Mcp

namespace Mcp

theorem ProcessJsonRpc_silent (tools : List ToolDef) (j : Json)
    (h : silentMember j = true) : ProcessJsonRpc tools j = none := by
  unfold silentMember at h
  rw [Bool.and_eq_true] at h
  obtain ⟨h1, h2⟩ := h
  rw [beq_iff_eq] at h1
  cases hm : j.getField "method" with
  | none => rw [hm] at h2; simp at h2
  | some mv =>
    rw [hm] at h2
    cases mv with
    | str m =>
      rw [Bool.or_eq_true] at h2
      rcases h2 with h2 | h2
      · have hkey : Json.hasKey j "id" = false := by
          cases hk : Json.hasKey j "id" <;> simp [hk] at h2 ⊢
        cases hc : HandleToolsCall tools (Json.valueD j "params" (Json.obj [])) <;>
          simp [ProcessJsonRpc, h1, hm, hkey, hc]
      · rw [beq_iff_eq] at h2
        simp [ProcessJsonRpc, h1, hm, h2]
    | null => simp at h2
    | bool b => simp at h2
    | num n => simp at h2
    | arr xs => simp at h2
    | obj fs => simp at h2

theorem ProcessJsonRpc_not_silent (tools : List ToolDef) (j : Json)
    (h : silentMember j = false) : (ProcessJsonRpc tools j).isSome = true := by
  by_cases h1 : j.getField "jsonrpc" = some (Json.str "2.0")
  · cases hm : j.getField "method" with
    | none => simp [ProcessJsonRpc, h1, hm]
    | some mv =>
      cases mv with
      | str m =>
        have h2 : (!(Json.hasKey j "id") || (m == "notifications/initialized"))
            = false := by
          unfold silentMember at h
          rw [hm] at h
          simpa [h1] using h
        rw [Bool.or_eq_false_iff] at h2
        obtain ⟨hkey, hnotif⟩ := h2
        have hkey' : Json.hasKey j "id" = true := by
          cases hk : Json.hasKey j "id" <;> simp [hk] at hkey ⊢
        cases hc : HandleToolsCall tools (Json.valueD j "params" (Json.obj [])) <;>
          simp [ProcessJsonRpc, h1, hm, hkey', hc, hnotif] <;>
          split_ifs <;> simp
      | null => simp [ProcessJsonRpc, h1, hm]
      | bool b => simp [ProcessJsonRpc, h1, hm]
      | num n => simp [ProcessJsonRpc, h1, hm]
      | arr xs => simp [ProcessJsonRpc, h1, hm]
      | obj fs => simp [ProcessJsonRpc, h1, hm]
  · simp [ProcessJsonRpc, h1]

end Mcp

namespace Mcp

/-- C5 counterexample: the single member of this batch carries no `id`
field — a notification in the claim's wording — yet the server answers
HTTP 200 with a non-empty body (the member lacks the `jsonrpc` marker,
so envelope validation answers it with a -32600 error entry even
though it has no id). -/
theorem HandleMcpRequest_all_notifications_cex :
    (HandleMcpRequest []
        (some (Json.arr [Json.obj [("method", Json.str "ping")]]))).status = 200 ∧
    (HandleMcpRequest []
        (some (Json.arr [Json.obj [("method", Json.str "ping")]]))).body ≠ none := by
  constructor
  · rfl
  · intro h
    rw [show HandleMcpRequest []
          (some (Json.arr [Json.obj [("method", Json.str "ping")]]))
        = { status := 200,
            body := some (Json.arr [MakeError Json.null (-32600)
              "Invalid Request: missing jsonrpc 2.0"]) } from rfl] at h
    cases h

/-- C5 (amended): a member produces no response entry exactly when it
passes envelope validation and carries no id (or has method
`notifications/initialized`, answered silently even with an id) — see
`silentMember`.  A batch (or single object) of such members is answered
with HTTP 202 and no body; otherwise the response set is non-empty and
the server answers 200 with the array of response objects (or the
single response object). -/
theorem HandleMcpRequest_notifications (tools : List ToolDef)
    (items : List Json) (fields : List (String × Json)) :
    ((∀ m ∈ items, silentMember m = true) →
      HandleMcpRequest tools (some (Json.arr items))
        = { status := 202, body := none }) ∧
    ((∃ m ∈ items, silentMember m = false) →
      (HandleMcpRequest tools (some (Json.arr items))).status = 200 ∧
      (HandleMcpRequest tools (some (Json.arr items))).body
        = some (Json.arr (items.filterMap (ProcessJsonRpc tools)))) ∧
    (silentMember (Json.obj fields) = true →
      HandleMcpRequest tools (some (Json.obj fields))
        = { status := 202, body := none }) ∧
    (silentMember (Json.obj fields) = false →
      ∃ r, ProcessJsonRpc tools (Json.obj fields) = some r ∧
        HandleMcpRequest tools (some (Json.obj fields))
          = { status := 200, body := some r }) := by
  refine ⟨?_, ?_, ?_, ?_⟩
  · intro hall
    have hnil : items.filterMap (ProcessJsonRpc tools) = [] :=
      List.filterMap_eq_nil_iff.mpr (fun a ha => ProcessJsonRpc_silent tools a (hall a ha))
    simp [HandleMcpRequest, hnil]
  · rintro ⟨m, hm, hms⟩
    have hsome := ProcessJsonRpc_not_silent tools m hms
    rw [Option.isSome_iff_exists] at hsome
    obtain ⟨r, hr⟩ := hsome
    have hne : ¬ items.filterMap (ProcessJsonRpc tools) = [] := by
      intro hnil
      rw [List.filterMap_eq_nil_iff] at hnil
      rw [hnil m hm] at hr
      cases hr
    constructor <;> simp [HandleMcpRequest, hne]
  · intro hs
    simp [HandleMcpRequest, ProcessJsonRpc_silent tools _ hs]
  · intro hs
    have hsome := ProcessJsonRpc_not_silent tools _ hs
    rw [Option.isSome_iff_exists] at hsome
    obtain ⟨r, hr⟩ := hsome
    exact ⟨r, hr, by simp [HandleMcpRequest, hr]⟩

end Mcp

namespace Whisper

theorem TranscribeAsync_guard_noop_witness :
    ((none : Option AssDialogue) = none ∨ "key" = "" ∨ true = false ∨
      (100:Int) - 0 ≤ 0 ∨ (100:Int) - 0 > MAX_DURATION_MS) ∧
    TranscribeAsync (none : Option AssDialogue) "key" true 0 100 ()
      ⟨[(1, "a")], [2]⟩ = (⟨[(1, "a")], [2]⟩, none) :=
  ⟨Or.inl rfl,
   TranscribeAsync_guard_noop none "key" true 0 100 () ⟨[(1, "a")], [2]⟩ (Or.inl rfl)⟩

theorem TranscribeAsync_cached_noop_witness :
    (((⟨[(1, "hello")], []⟩ : WhisperState).cache.lookup
        (⟨1, []⟩ : AssDialogue).Id).isSome = true) ∧
    TranscribeAsync (some (⟨1, []⟩ : AssDialogue)) "key" true 0 100 ()
      ⟨[(1, "hello")], []⟩ = (⟨[(1, "hello")], []⟩, none) :=
  ⟨by decide,
   TranscribeAsync_cached_noop ⟨1, []⟩ "key" true 0 100 () ⟨[(1, "hello")], []⟩
     (by decide)⟩

theorem TranscribeAsync_redundant_callback_dropped_witness :
    ((⟨2, []⟩ : AssDialogue).Id ∈ (⟨[], [2]⟩ : WhisperState).in_flight) ∧
    TranscribeAsync (some (⟨2, []⟩ : AssDialogue)) "key" true 0 100 ()
      ⟨[], [2]⟩ = (⟨[], [2]⟩, none) :=
  ⟨by decide,
   TranscribeAsync_redundant_callback_dropped ⟨2, []⟩ "key" true 0 100 ()
     ⟨[], [2]⟩ (Or.inr (by decide))⟩

theorem runBackgroundTask_empty_result_witness :
    ((5:Int) ∈ [(5:Int)]) ∧
    (runBackgroundTask (⟨5, 0, 100, ()⟩ : ScheduledTask Unit) ⟨true, ""⟩
        ⟨[(3, "x")], [5]⟩ ⟨[], [], 0⟩).state.cache = [(3, "x")] ∧
    (runBackgroundTask (⟨5, 0, 100, ()⟩ : ScheduledTask Unit) ⟨true, ""⟩
        ⟨[(3, "x")], [5]⟩ ⟨[], [], 0⟩).state.in_flight = setErase 5 [5] ∧
    (5:Int) ∉ (runBackgroundTask (⟨5, 0, 100, ()⟩ : ScheduledTask Unit) ⟨true, ""⟩
        ⟨[(3, "x")], [5]⟩ ⟨[], [], 0⟩).state.in_flight ∧
    (runBackgroundTask (⟨5, 0, 100, ()⟩ : ScheduledTask Unit) ⟨true, ""⟩
        ⟨[(3, "x")], [5]⟩ ⟨[], [], 0⟩).doc = ⟨[], [], 0⟩ ∧
    (runBackgroundTask (⟨5, 0, 100, ()⟩ : ScheduledTask Unit) ⟨true, ""⟩
        ⟨[(3, "x")], [5]⟩ ⟨[], [], 0⟩).callback_arg = "" :=
  ⟨by decide,
   runBackgroundTask_empty_result ⟨5, 0, 100, ()⟩ ⟨true, ""⟩ ⟨[(3, "x")], [5]⟩
     ⟨[], [], 0⟩ (by decide) rfl rfl⟩

theorem Clear_then_completion_witness :
    ("hi" ≠ "") ∧
    (Clear (⟨[(1, "a")], [1]⟩ : WhisperState)).cache = [] ∧
    (Clear (⟨[(1, "a")], [1]⟩ : WhisperState)).in_flight = [] ∧
    (runBackgroundTask (⟨1, 0, 10, ()⟩ : ScheduledTask Unit) ⟨true, "hi"⟩
        (Clear ⟨[(1, "a")], [1]⟩) ⟨[], [], 0⟩).state.cache.lookup 1 = some "hi" ∧
    (runBackgroundTask (⟨1, 0, 10, ()⟩ : ScheduledTask Unit) ⟨true, "hi"⟩
        (Clear ⟨[(1, "a")], [1]⟩) ⟨[], [], 0⟩).state.in_flight = [] :=
  ⟨by decide,
   Clear_then_completion ⟨[(1, "a")], [1]⟩ ⟨1, 0, 10, ()⟩ ⟨true, "hi"⟩ ⟨[], [], 0⟩
     rfl (by decide)⟩

theorem TranscribeAsync_dedup_witness :
    TranscribeAsync (some (⟨7, []⟩ : AssDialogue)) "key" true 0 1000 ()
      ⟨[], [7]⟩ = (⟨[], [7]⟩, none) :=
  (TranscribeAsync_dedup ⟨7, []⟩ ⟨7, []⟩ "key" "key" true true 0 1000 0 1000 () ()
    ⟨[], []⟩ ⟨[], [7]⟩ ⟨7, 0, 1000, ()⟩ rfl rfl).1

theorem StoreInExtradata_LoadFromExtradata_roundtrip_witness :
    ("hi" ≠ "") ∧
    GetCachedText
      (LoadFromExtradata
        (StoreInExtradata ⟨[⟨1, []⟩], [], 0⟩ (⟨1, []⟩ : AssDialogue).Id "hi")
        ⟨[], []⟩)
      ⟨1, []⟩ = "hi" :=
  ⟨by decide,
   StoreInExtradata_LoadFromExtradata_roundtrip ⟨[⟨1, []⟩], [], 0⟩ ⟨1, []⟩ "hi"
     ⟨[], []⟩ (by decide) (by simp) (by decide) (by decide)⟩

end Whisper

namespace Mcp

theorem ProcessJsonRpc_unknown_tool_witness :
    ProcessJsonRpc []
      (Json.obj [("jsonrpc", Json.str "2.0"), ("id", Json.num 1),
        ("method", Json.str "tools/call"),
        ("params", Json.obj [("name", Json.str "__nonexistent__")])])
      = some (envelope (Json.num 1) (unknownToolResult "__nonexistent__")) :=
  ProcessJsonRpc_unknown_tool []
    [("jsonrpc", Json.str "2.0"), ("id", Json.num 1),
      ("method", Json.str "tools/call"),
      ("params", Json.obj [("name", Json.str "__nonexistent__")])]
    (Json.num 1) (Json.obj [("name", Json.str "__nonexistent__")]) "__nonexistent__"
    rfl rfl rfl rfl rfl (by simp)

theorem HandleMcpRequest_notifications_witness :
    HandleMcpRequest [] (some (Json.arr
      [Json.obj [("jsonrpc", Json.str "2.0"), ("method", Json.str "ping")],
       Json.obj [("jsonrpc", Json.str "2.0"), ("method", Json.str "tools/list")],
       Json.obj [("jsonrpc", Json.str "2.0"),
         ("method", Json.str "notifications/initialized"), ("id", Json.num 3)]]))
    = { status := 202, body := none } :=
  (HandleMcpRequest_notifications []
    [Json.obj [("jsonrpc", Json.str "2.0"), ("method", Json.str "ping")],
     Json.obj [("jsonrpc", Json.str "2.0"), ("method", Json.str "tools/list")],
     Json.obj [("jsonrpc", Json.str "2.0"),
       ("method", Json.str "notifications/initialized"), ("id", Json.num 3)]]
    []).1 (by decide)

end Mcp
